import Mathlib

/-!
Verification development for the defect-document reconciliation core of
`atomate2.cp2k.schemas.defect` (file `src/atomate2/cp2k/schemas/defect.py`).

The Python module is shallowly embedded here.  Pure fragments of the module
become Lean functions; the mutation of a `DefectDoc` by `update_one` /
`update_many` becomes explicit state passing (`DefectDocE → DefectDocE`);
Python exceptions become `Except Err` / an `Option Err` component of the
result; `float` energies become `Rat` (the comparisons performed by the code
are exact `<` / `==`, which agree with rational comparison on the inputs
considered); `datetime.now()` becomes an explicit `now : Nat` argument.

Calls into the external `pymatgen` library (the defect-site finder, the
Freysoldt correction routines, sphere queries, distance computations) are
not code of this repository.  They are modelled as explicit function
parameters (`ExternalGeom`, `Ext3d`, `Ext2d`), so every theorem quantifies
over the behaviour of the external collaborator unless the repository's own
code fixes the result.
-/

set_option autoImplicit false

namespace DefectSchema

/-- A fractional coordinate in the supercell (pymatgen `frac_coords`). -/
abbrev Vec3 := Rat × Rat × Rat

/-- A 3x3 dielectric tensor (the code indexes entries `[0][0]`, `[1][1]`,
`[2][2]`). -/
abbrev Diel := Fin 3 → Fin 3 → Rat

/-- Python exceptions that the embedded code can raise.
`keyError` models a `KeyError` from a missing dict key, `typeError` the
`TypeError` raised by `enumerate(None)`. -/
inductive Err where
  | keyError
  | typeError
  deriving DecidableEq, Repr

/-- The slice of a pymatgen `Structure` that the repository code reads:
the number of sites (`len(structure)`), the atom count of its composition
(`composition.num_atoms`), the per-site `ghost` site property as stored in
`site_properties` (`none` when no site carries the property, mirroring
`site_properties.get("ghost") is None`), the per-site fractional
coordinates, and the structure's total charge. -/
structure StructureE where
  numSites : Nat
  numAtoms : Nat
  ghostProps : Option (List Bool)
  fracCoords : List Vec3
  charge : Int
  deriving DecidableEq, Repr

/-- The slice of a CP2K `TaskDocument` that `defect.py` reads:
`task.structure` (the final output structure), `task.input.structure`,
`task.output.energy`, `task.output.vbm`, the `v_hartree` volumetric object
(kept as an opaque token), the free-form `tags`, and
`calcs_reversed[0].run_type`. -/
structure TaskDocE where
  structure_ : StructureE
  inputStructure : StructureE
  outputEnergy : Rat
  outputVbm : Rat
  vHartree : String
  tags : List String
  runType : String
  deriving DecidableEq, Repr

/-- The `parameters` dict assembled by
`DefectDoc.get_parameters_from_tasks` (plus the optional `dielectric` key
that `get_defect_entry_from_tasks` adds, and the optional `"2d"` key
represented as a `Bool`). -/
structure Params where
  defectEnergy : Rat
  bulkEnergy : Rat
  chargeState : Int
  defectFracScCoords : Vec3
  defectVHartree : String
  bulkVHartree : String
  dielectric : Option Diel
  twoD : Bool
  initialDefectStructure : StructureE
  finalDefectStructure : StructureE

/-- Result object of the external pymatgen Freysoldt correction routines
(`result.correction_energy` and `result.metadata`). -/
structure FreysoldtResult where
  correctionEnergy : Rat
  metadata : List (String × Rat)

/-- The external `pymatgen...get_freysoldt_correction`
`(q, dielectric, defect_locpot, bulk_locpot, defect_frac_coords)`. -/
abbrev Ext3d := Int → Diel → String → String → Vec3 → FreysoldtResult

/-- The external `pymatgen...get_freysoldt2d_correction`
`(q, dielectric, defect_locpot, bulk_locpot, defect_frac_coords,
energy_cutoff, slab_buffer)`. -/
abbrev Ext2d := Int → Rat → String → String → Vec3 → Nat → Nat → FreysoldtResult

/-- External pymatgen geometry services used by the repository code:
`DefectSiteFinder(...).get_defect_fpos`, `get_truncated_coulomb_cutoff`,
`Structure.get_sites_in_sphere` (returned as the list of site indices inside
the sphere), the site-by-site displacement list
`[site.distance(in_struc[i]) for i, site in enumerate(out_struc)]`, and the
distances from an adsorbate's site to every other site. -/
structure ExternalGeom where
  finder : StructureE → StructureE → Vec3
  cutoff : StructureE → Rat
  sitesInSphere : StructureE → Vec3 → Rat → List Nat
  distList : StructureE → StructureE → List Rat
  adsorbateNeighborDists : StructureE → Vec3 → List Rat

/-- Python `dict` assignment `d[k] = v`: if the key is present its value is
replaced in place, otherwise the pair is appended. -/
def dictInsert {α : Type} (k : String) (v : α) (d : List (String × α)) :
    List (String × α) :=
  if d.any (fun p => p.1 == k) then
    d.map (fun p => if p.1 == k then (k, v) else p)
  else d ++ [(k, v)]

/-- Python `d.update(upd)`: insert every pair of `upd` into `d` in order. -/
def dictUpdate {α : Type} (d upd : List (String × α)) : List (String × α) :=
  upd.foldl (fun acc p => dictInsert p.1 p.2 acc) d

/-- `DefectDoc.get_parameters_from_tasks`.  The `ghost` extraction is
translated literally: when `site_properties.get("ghost")` is `None` the
Python `enumerate(None)` raises `TypeError`; when a tagged index exists the
first one's fractional coordinate is used; otherwise the external
`DefectSiteFinder` is invoked.  `charge_state` is read from the final output
structure's charge, and the `"2d"` key is set iff `"2d"` is among the defect
task's tags. -/
def getParametersFromTasks (finder : StructureE → StructureE → Vec3)
    (defectTask bulkTask : TaskDocE) : Except Err Params :=
  let finalDefectStructure := defectTask.structure_
  let finalBulkStructure := bulkTask.structure_
  match finalDefectStructure.ghostProps with
  | none => .error .typeError
  | some props =>
    let ghost := (props.enum.filter (fun p => p.2)).map (fun p => p.1)
    let defectFracScCoords :=
      match ghost with
      | i :: _ => finalDefectStructure.fracCoords.getD i (0, 0, 0)
      | [] => finder finalDefectStructure finalBulkStructure
    .ok
      { defectEnergy := defectTask.outputEnergy
        bulkEnergy := bulkTask.outputEnergy
        chargeState := finalDefectStructure.charge
        defectFracScCoords := defectFracScCoords
        defectVHartree := defectTask.vHartree
        bulkVHartree := bulkTask.vHartree
        dielectric := none
        twoD := defectTask.tags.contains "2d"
        initialDefectStructure := defectTask.inputStructure
        finalDefectStructure := finalDefectStructure }

/-- `DefectDoc.get_freysoldt_correction`: guarded on a truthy
`charge_state` and the absence of the `"2d"` key; inside the guard the code
reads `parameters["dielectric"]`, which raises `KeyError` when the key was
never installed (i.e. no dielectric was supplied). -/
def getFreysoldtCorrection (ext : Ext3d) (p : Params) :
    Except Err (List (String × Rat) × List (String × Rat)) :=
  if p.chargeState ≠ 0 ∧ p.twoD = false then
    match p.dielectric with
    | none => .error .keyError
    | some d =>
      let result := ext p.chargeState d p.defectVHartree p.bulkVHartree
        p.defectFracScCoords
      .ok ([("freysoldt", result.correctionEnergy)], result.metadata)
  else .ok ([], [])

/-- `DefectDoc.get_freysoldt2d_correction`: guarded on a truthy
`charge_state` and the presence of the `"2d"` key.  The effective dielectric
scalar is derived from the tensor exactly as in the source; the scratch-dir
materialization of the two `LOCPOT` files and the lattice substitution are
I/O on the opaque volumetric tokens and do not affect the returned value,
which is produced by the external 2-D routine with the fixed
`energy_cutoff=520` and `slab_buffer=2`. -/
def getFreysoldt2dCorrection (ext : Ext2d) (p : Params) :
    Except Err (List (String × Rat) × List (String × Rat)) :=
  if p.chargeState ≠ 0 ∧ p.twoD = true then
    match p.dielectric with
    | none => .error .keyError
    | some d =>
      let epsParallel := (d 0 0 + d 1 1) / 2
      let epsPerp := d 2 2
      let dielectric := (epsParallel - 1) / (1 - 1 / epsPerp)
      let result := ext p.chargeState dielectric p.defectVHartree
        p.bulkVHartree p.defectFracScCoords 520 2
      .ok ([("freysoldt", result.correctionEnergy)], result.metadata)
  else .ok ([], [])

/-- `DefectDoc.get_correction_from_parameters`: run both strategies in
order and accumulate their corrections and metadata into one dict each via
`dict.update`. -/
def getCorrectionFromParameters (ext3d : Ext3d) (ext2d : Ext2d) (p : Params) :
    Except Err (List (String × Rat) × List (String × Rat)) := do
  let (c1, m1) ← getFreysoldtCorrection ext3d p
  let (c2, m2) ← getFreysoldt2dCorrection ext2d p
  .ok (dictUpdate (dictUpdate [] c1) c2, dictUpdate (dictUpdate [] m1) m2)

/-- The validation outcome dict `{validator_name: bool}`. -/
abbrev ValidOutcome := List (String × Bool)

/-- `DefectValidation`: the two configurable thresholds, with the source's
defaults (`MAX_ATOMIC_RELAXATION = 0.02`, `DESORPTION_DISTANCE = 3`). -/
structure DefectValidationE where
  maxAtomicRelaxation : Rat := mkRat 1 50
  desorptionDistance : Rat := 3

/-- `np.mean` on a list of rationals (the claims only evaluate it on
nonempty lists; on `[]` numpy would give `NaN`, for which `NaN > t` is
false, and here `0 / 0 = 0 > t` is equally false for the nonnegative
thresholds in use). -/
def mean (l : List Rat) : Rat := l.sum / (l.length : Rat)

/-- The displacement sub-array `distances[outside_sphere]` of
`DefectValidation._atomic_relaxation`: site indices inside the sphere of
radius `get_truncated_coulomb_cutoff(in_struc)` around the defect are
dropped, and the remaining indices select from the site-by-site distance
array. -/
def outsideDistances (G : ExternalGeom) (p : Params) : List Rat :=
  let inStruc := p.initialDefectStructure
  let outStruc := p.finalDefectStructure
  let insideSphere :=
    G.sitesInSphere outStruc p.defectFracScCoords (G.cutoff inStruc)
  let outsideSphere :=
    (List.range outStruc.numSites).filter (fun i => !insideSphere.contains i)
  let distances := G.distList outStruc inStruc
  outsideSphere.filterMap (fun i => distances[i]?)

/-- `DefectValidation._atomic_relaxation`: fail (`False`) iff the mean
displacement outside the isolation sphere is strictly greater than
`MAX_ATOMIC_RELAXATION`. -/
def atomicRelaxationCheck (v : DefectValidationE) (G : ExternalGeom)
    (p : Params) : ValidOutcome :=
  if v.maxAtomicRelaxation < mean (outsideDistances G p) then
    [("atomic_relaxation", false)]
  else [("atomic_relaxation", true)]

/-- `DefectValidation._desorption`: only an `Adsorbate` defect is checked;
it fails (`False`) iff every other atom is farther than
`DESORPTION_DISTANCE` from the defect site. -/
def desorptionCheck (v : DefectValidationE) (G : ExternalGeom)
    (isAdsorbate : Bool) (p : Params) : ValidOutcome :=
  if isAdsorbate then
    let distances :=
      G.adsorbateNeighborDists p.finalDefectStructure p.defectFracScCoords
    if distances.all (fun d => v.desorptionDistance < d) then
      [("desorption", false)]
    else [("desorption", true)]
  else [("desorption", true)]

/-- `DefectValidation.process_entry`: accumulate the two checks into one
outcome dict via `dict.update`. -/
def processEntry (v : DefectValidationE) (G : ExternalGeom)
    (isAdsorbate : Bool) (p : Params) : ValidOutcome :=
  dictUpdate (dictUpdate [] (atomicRelaxationCheck v G p))
    (desorptionCheck v G isAdsorbate p)

/-- The slice of a supercell `ComputedStructureEntry` that the merge core
reads: `composition.num_atoms` of its structure and its raw `energy`. -/
structure SCEntry where
  numAtoms : Nat
  energy : Rat
  deriving DecidableEq, Repr

/-- The slice of a pymatgen `DefectEntry` that the document stores:
its supercell entry, `charge_state`, corrections dict and
`sc_defect_frac_coords`. -/
structure DefectEntryE where
  scEntry : SCEntry
  chargeState : Int
  corrections : List (String × Rat)
  fracCoords : Vec3
  deriving DecidableEq, Repr

/-- `DefectDoc.get_defect_entry_from_tasks`: build the parameter bundle,
install the dielectric key only when a (truthy) dielectric was supplied,
run the correction strategies, assemble the supercell entry from the final
defect structure and raw defect energy, and validate with a
default-configured `DefectValidation`. -/
def getDefectEntryFromTasks (G : ExternalGeom) (ext3d : Ext3d) (ext2d : Ext2d)
    (defectTask bulkTask : TaskDocE) (isAdsorbate : Bool)
    (dielectric : Option Diel) : Except Err (DefectEntryE × ValidOutcome) := do
  let params0 ← getParametersFromTasks G.finder defectTask bulkTask
  let params :=
    match dielectric with
    | some d => { params0 with dielectric := some d }
    | none => params0
  let (corrections, _metadata) ← getCorrectionFromParameters ext3d ext2d params
  let scEntry : SCEntry :=
    { numAtoms := params.finalDefectStructure.numAtoms
      energy := params.defectEnergy }
  let defectEntry : DefectEntryE :=
    { scEntry := scEntry
      chargeState := params.chargeState
      corrections := corrections
      fracCoords := params.defectFracScCoords }
  let validv := processEntry {} G isAdsorbate params
  .ok (defectEntry, validv)

/-- Lookup in one of the run-type-keyed `Mapping` fields of a `DefectDoc`
(modelled as an association list; the most recent binding for a key is the
visible one). -/
def rtLookup {α : Type} (m : List (String × α)) (k : String) : Option α :=
  match m with
  | [] => none
  | (k', v) :: rest => if k' = k then some v else rtLookup rest k

/-- Python dict key assignment `self.field[rt] = v` on a run-type-keyed
mapping: the new binding shadows any previous one under `rtLookup`. -/
def rtInsert {α : Type} (k : String) (v : α) (m : List (String × α)) :
    List (String × α) :=
  (k, v) :: m

/-- The mutable state of a `DefectDoc` as read and written by the merge
core: the six parallel run-type-keyed mappings, the identity fields fixed
at creation, the task-id set (`list(set(...) | {d_id})` in the source has
set semantics, modelled as a `Finset`), and the two timestamps. -/
structure DefectDocE where
  defect : String
  charge : Int
  name : String
  materialId : String
  defectIds : List (String × String)
  bulkIds : List (String × String)
  taskIds : Finset String
  defectEntries : List (String × DefectEntryE)
  bulkEntries : List (String × SCEntry)
  vbm : List (String × Rat)
  valid : List (String × ValidOutcome)
  lastUpdated : Nat
  createdAt : Nat
  deriving DecidableEq

/-- One incremental input to `update_one`, with the fallible
defect-entry-building stage (`get_defect_from_task`, `TaskDocument`
parsing, `get_defect_entry_from_tasks`) represented by its outcome
`build`; `rt` is `defect_task.calcs_reversed[0].run_type`, `vbm` is
`bulk_task.output.vbm`, and `bulkEntry` is the result of
`get_bulk_entry_from_task`. -/
structure Triple where
  dId : String
  bId : String
  rt : String
  build : Except Err (DefectEntryE × ValidOutcome)
  bulkEntry : SCEntry
  vbm : Rat

/-- The comparison-and-replacement block of `DefectDoc.update_one`
(lines 105-122 of the source): `current_largest_sc` is the stored entry's
atom count or the sentinel `0`; the candidate replaces the stored record
when its atom count is strictly larger, or the atom counts are equal and
its raw energy is strictly lower — the energy read
`self.defect_entries[rt].sc_entry.energy` raises `KeyError` when no entry
is stored (reachable only for a zero-atom candidate).  On replacement all
six mappings are overwritten for `rt`; in every non-raising path the defect
task id is added to the task-id set. -/
def mergeCond (doc : DefectDocE) (rt : String) (de : DefectEntryE) :
    Except Err Bool :=
  let currentLargestSc : Nat :=
    match rtLookup doc.defectEntries rt with
    | some e => e.scEntry.numAtoms
    | none => 0
  let potentialLargestSc := de.scEntry.numAtoms
  if currentLargestSc < potentialLargestSc then .ok true
  else if potentialLargestSc = currentLargestSc then
    match rtLookup doc.defectEntries rt with
    | some e => .ok (decide (de.scEntry.energy < e.scEntry.energy))
    | none => .error .keyError
  else .ok false

def mergeStep (doc : DefectDocE) (rt dId bId : String) (de : DefectEntryE)
    (be : SCEntry) (vbmv : Rat) (validv : ValidOutcome) :
    Except Err DefectDocE :=
  match mergeCond doc rt de with
  | .error e => .error e
  | .ok b =>
    let doc :=
      if b then
        { doc with
          defectEntries := rtInsert rt de doc.defectEntries
          defectIds := rtInsert rt dId doc.defectIds
          bulkEntries := rtInsert rt be doc.bulkEntries
          bulkIds := rtInsert rt bId doc.bulkIds
          vbm := rtInsert rt vbmv doc.vbm
          valid := rtInsert rt validv doc.valid }
      else doc
    .ok { doc with taskIds := insert dId doc.taskIds }

/-- `DefectDoc.update_one`: both timestamps are refreshed first; then the
fallible entry-building stage runs; on success the merge block executes.
A raised exception propagates (`some e`), leaving the document in whatever
state it had reached — faithfully, with only the timestamps refreshed. -/
def updateOne (now : Nat) (doc : DefectDocE) (t : Triple) :
    DefectDocE × Option Err :=
  let doc := { doc with lastUpdated := now, createdAt := now }
  match t.build with
  | .error e => (doc, some e)
  | .ok (de, validv) =>
    match mergeStep doc t.rt t.dId t.bId de t.bulkEntry t.vbm validv with
    | .error e => (doc, some e)
    | .ok doc' => (doc', none)

/-- `DefectDoc.update_many`: a plain `for` loop over the zipped triples
calling `update_one`; an exception raised by one iteration propagates and
aborts the loop. -/
def updateMany (now : Nat) (doc : DefectDocE) :
    List Triple → DefectDocE × Option Err
  | [] => (doc, none)
  | t :: ts =>
    match updateOne now doc t with
    | (doc', none) => updateMany now doc' ts
    | (doc', some e) => (doc', some e)

/-- The per-category canonical record of the spec's data model: the
sextuple held, for one run type, across the six parallel mappings of a
`DefectDoc`. -/
structure CanonicalRecord where
  defectEntry : DefectEntryE
  bulkEntry : SCEntry
  defectId : String
  bulkId : String
  vbm : Rat
  valid : ValidOutcome
  deriving DecidableEq

/-- The six mappings of `doc`, at run type `rt`, jointly hold exactly the
record `o` (all six lookups agree with the corresponding projection). -/
def viewsMatch (doc : DefectDocE) (rt : String) (o : Option CanonicalRecord) :
    Prop :=
  rtLookup doc.defectEntries rt = o.map (fun r => r.defectEntry) ∧
  rtLookup doc.bulkEntries rt = o.map (fun r => r.bulkEntry) ∧
  rtLookup doc.defectIds rt = o.map (fun r => r.defectId) ∧
  rtLookup doc.bulkIds rt = o.map (fun r => r.bulkId) ∧
  rtLookup doc.vbm rt = o.map (fun r => r.vbm) ∧
  rtLookup doc.valid rt = o.map (fun r => r.valid)

/-- The canonical record visible in `doc` for run type `rt`, assembled from
the six parallel mappings (defined when all six are). -/
def canonicalView (doc : DefectDocE) (rt : String) : Option CanonicalRecord :=
  match rtLookup doc.defectEntries rt, rtLookup doc.bulkEntries rt,
    rtLookup doc.defectIds rt, rtLookup doc.bulkIds rt,
    rtLookup doc.vbm rt, rtLookup doc.valid rt with
  | some de, some be, some di, some bi, some v, some va =>
    some ⟨de, be, di, bi, v, va⟩
  | _, _, _, _, _, _ => none

/-- An `update_one` input whose entry-building stage succeeded: the data of
one candidate (category, defect entry, validation outcome, ids, bulk entry,
vbm). -/
structure OkCand where
  dId : String
  bId : String
  rt : String
  defectEntry : DefectEntryE
  valid : ValidOutcome
  bulkEntry : SCEntry
  vbm : Rat
  deriving DecidableEq

/-- Package a successful candidate as an `update_one` input. -/
def toTriple (c : OkCand) : Triple :=
  { dId := c.dId, bId := c.bId, rt := c.rt
    build := .ok (c.defectEntry, c.valid)
    bulkEntry := c.bulkEntry, vbm := c.vbm }

/-- The canonical record a candidate would install. -/
def candRecord (c : OkCand) : CanonicalRecord :=
  ⟨c.defectEntry, c.bulkEntry, c.dId, c.bId, c.vbm, c.valid⟩

/-- The tie-break key of a record: (supercell atom count, raw energy). -/
def ckey (r : CanonicalRecord) : Nat × Rat :=
  (r.defectEntry.scEntry.numAtoms, r.defectEntry.scEntry.energy)

/-- The source's replacement condition: the candidate `c` supersedes the
stored record `ex` iff its supercell atom count is strictly larger, or the
atom counts are equal and its raw energy is strictly lower. -/
def beats (c ex : CanonicalRecord) : Prop :=
  ex.defectEntry.scEntry.numAtoms < c.defectEntry.scEntry.numAtoms ∨
    (c.defectEntry.scEntry.numAtoms = ex.defectEntry.scEntry.numAtoms ∧
      c.defectEntry.scEntry.energy < ex.defectEntry.scEntry.energy)

instance (c ex : CanonicalRecord) : Decidable (beats c ex) :=
  inferInstanceAs (Decidable
    (ex.defectEntry.scEntry.numAtoms < c.defectEntry.scEntry.numAtoms ∨
      (c.defectEntry.scEntry.numAtoms = ex.defectEntry.scEntry.numAtoms ∧
        c.defectEntry.scEntry.energy < ex.defectEntry.scEntry.energy)))

theorem beats_irrefl (c : CanonicalRecord) : ¬ beats c c := by
  simp [beats]

theorem beats_asymm {a b : CanonicalRecord} (h : beats a b) : ¬ beats b a := by
  rcases h with h | ⟨h1, h2⟩
  · rintro (h' | ⟨h1', h2'⟩)
    · omega
    · omega
  · rintro (h' | ⟨h1', h2'⟩)
    · omega
    · exact absurd (h2.trans h2') (lt_irrefl _)

theorem beats_trans {a b c : CanonicalRecord} (h1 : beats a b)
    (h2 : beats b c) : beats a c := by
  rcases h1 with h1 | ⟨h1, h1'⟩ <;> rcases h2 with h2 | ⟨h2, h2'⟩
  · exact Or.inl (h2.trans h1)
  · exact Or.inl (h2 ▸ h1)
  · exact Or.inl (h1 ▸ h2)
  · exact Or.inr ⟨h1.trans h2, h1'.trans h2'⟩

theorem beats_total {a b : CanonicalRecord} (h1 : ¬ beats a b)
    (h2 : ¬ beats b a) : ckey a = ckey b := by
  unfold beats at h1 h2
  push_neg at h1 h2
  unfold ckey
  have hn : a.defectEntry.scEntry.numAtoms = b.defectEntry.scEntry.numAtoms := by
    omega
  have he : a.defectEntry.scEntry.energy = b.defectEntry.scEntry.energy :=
    le_antisymm (h2.2 hn.symm) (h1.2 hn)
  rw [hn, he]

/-- One abstract step of the canonical selector on the record for one
category: install into an empty slot, otherwise keep the stored record
unless the candidate `beats` it. -/
def step (acc : Option CanonicalRecord) (c : CanonicalRecord) :
    Option CanonicalRecord :=
  match acc with
  | none => some c
  | some ex => if beats c ex then some c else some ex

/-- Folding the abstract selector step over a list of candidates. -/
def mergeFold (init : Option CanonicalRecord) (l : List CanonicalRecord) :
    Option CanonicalRecord :=
  l.foldl step init

/-- Characterization of a selector result: either the initial record
survives and no candidate beats it, or some listed candidate wins — it is
beaten by no listed candidate and beats the initial record — or there was
nothing to select from. -/
def IsMergeResult (init : Option CanonicalRecord) (l : List CanonicalRecord)
    (r : Option CanonicalRecord) : Prop :=
  (∃ y, init = some y ∧ (∀ c ∈ l, ¬ beats c y) ∧ r = some y) ∨
  (∃ m, m ∈ l ∧ r = some m ∧ (∀ c ∈ l, ¬ beats c m) ∧
    (∀ y, init = some y → beats m y)) ∨
  (init = none ∧ l = [] ∧ r = none)

theorem mergeFold_isMergeResult (l : List CanonicalRecord) :
    ∀ init, IsMergeResult init l (mergeFold init l) := by
  induction l with
  | nil =>
    intro init
    cases init with
    | none => exact Or.inr (Or.inr ⟨rfl, rfl, rfl⟩)
    | some y =>
      refine Or.inl ⟨y, rfl, ?_, rfl⟩
      intro c hc
      exact absurd hc (List.not_mem_nil c)
  | cons c cs ih =>
    intro init
    show IsMergeResult init (c :: cs) (mergeFold (step init c) cs)
    rcases ih (step init c) with ⟨y, hy, hnb, hr⟩ | ⟨m, hm, hr, hnb, hbi⟩ |
      ⟨hs, hcs, hr⟩
    · -- the tail fold kept its initial record `y = step init c`
      cases init with
      | none =>
        have hyc : y = c := by
          have h : some c = some y := by simpa [step] using hy
          exact (Option.some.inj h).symm
        subst hyc
        refine Or.inr (Or.inl ⟨y, List.mem_cons_self y cs, hr, ?_, ?_⟩)
        · intro d hd
          rcases List.mem_cons.mp hd with rfl | hd'
          · exact beats_irrefl d
          · exact hnb d hd'
        · intro z hz
          simp at hz
      | some ex =>
        by_cases hb : beats c ex
        · have hyc : y = c := by
            have h : some c = some y := by simpa [step, if_pos hb] using hy
            exact (Option.some.inj h).symm
          subst hyc
          refine Or.inr (Or.inl ⟨y, List.mem_cons_self y cs, hr, ?_, ?_⟩)
          · intro d hd
            rcases List.mem_cons.mp hd with rfl | hd'
            · exact beats_irrefl d
            · exact hnb d hd'
          · intro z hz
            have hez : ex = z := Option.some.inj hz
            subst hez
            exact hb
        · have hyex : y = ex := by
            have h : some ex = some y := by simpa [step, if_neg hb] using hy
            exact (Option.some.inj h).symm
          subst hyex
          refine Or.inl ⟨y, rfl, ?_, hr⟩
          intro d hd
          rcases List.mem_cons.mp hd with rfl | hd'
          · exact hb
          · exact hnb d hd'
    · -- the tail fold selected a winner `m ∈ cs`
      refine Or.inr (Or.inl ⟨m, List.mem_cons_of_mem c hm, hr, ?_, ?_⟩)
      · intro d hd
        rcases List.mem_cons.mp hd with rfl | hd'
        · cases init with
          | none => exact beats_asymm (hbi d (by simp [step]))
          | some ex =>
            by_cases hb : beats d ex
            · exact beats_asymm (hbi d (by simp [step, if_pos hb]))
            · intro hdm
              exact hb (beats_trans hdm (hbi ex (by simp [step, if_neg hb])))
        · exact hnb d hd'
      · intro z hz
        subst hz
        by_cases hb : beats c z
        · exact beats_trans (hbi c (by simp [step, if_pos hb])) hb
        · exact hbi z (by simp [step, if_neg hb])
    · -- the tail fold reported an empty selection: impossible, since
      -- `step` never returns `none`
      exfalso
      cases init with
      | none => simp [step] at hs
      | some ex => by_cases hb : beats c ex <;> simp [step, hb] at hs

theorem isMergeResult_unique {init : Option CanonicalRecord}
    {l l' : List CanonicalRecord} {r r' : Option CanonicalRecord}
    (hperm : l.Perm l')
    (hpw : l.Pairwise (fun a b => ckey a ≠ ckey b))
    (h1 : IsMergeResult init l r) (h2 : IsMergeResult init l' r') :
    r = r' := by
  have h2' : IsMergeResult init l r' := by
    rcases h2 with ⟨y, hy, hnb, hr⟩ | ⟨m, hm, hr, hnb, hbi⟩ | ⟨hi, hl, hr⟩
    · exact Or.inl ⟨y, hy, fun c hc => hnb c (hperm.mem_iff.mp hc), hr⟩
    · exact Or.inr (Or.inl ⟨m, hperm.mem_iff.mpr hm, hr,
        fun c hc => hnb c (hperm.mem_iff.mp hc), hbi⟩)
    · refine Or.inr (Or.inr ⟨hi, ?_, hr⟩)
      have hlen : l.length = 0 := by rw [hperm.length_eq, hl]; rfl
      exact List.eq_nil_of_length_eq_zero hlen
  have hkey : ∀ a ∈ l, ∀ b ∈ l, ckey a = ckey b → a = b := by
    intro a ha b hb hk
    by_contra hne
    exact List.Pairwise.forall (fun x y h => Ne.symm h) hpw ha hb hne hk
  rcases h1 with ⟨y, hy, hnb, hr⟩ | ⟨m, hm, hr, hnb, hbi⟩ | ⟨hi, hl0, hr⟩
  · rcases h2' with ⟨y', hy', hnb', hr'⟩ | ⟨m', hm', hr', hnb', hbi'⟩ |
      ⟨hi', hl0', hr'⟩
    · rw [hr, hr']
      rw [hy] at hy'
      exact congrArg some (Option.some.inj hy')
    · exact absurd (hbi' y hy) (hnb m' hm')
    · rw [hi'] at hy
      exact absurd hy (by simp)
  · rcases h2' with ⟨y', hy', hnb', hr'⟩ | ⟨m', hm', hr', hnb', hbi'⟩ |
      ⟨hi', hl0', hr'⟩
    · exact absurd (hbi y' hy') (hnb' m hm)
    · have hck : ckey m = ckey m' :=
        beats_total (hnb' m hm) (hnb m' hm')
      rw [hr, hr', hkey m hm m' hm' hck]
    · rw [hl0'] at hm
      exact absurd hm (List.not_mem_nil m)
  · rcases h2' with ⟨y', hy', hnb', hr'⟩ | ⟨m', hm', hr', hnb', hbi'⟩ |
      ⟨hi', hl0', hr'⟩
    · rw [hi] at hy'
      exact absurd hy' (by simp)
    · rw [hl0] at hm'
      exact absurd hm' (List.not_mem_nil m')
    · rw [hr, hr']

/-- Order independence of the abstract selector fold, given pairwise
distinct tie-break keys among the candidates. -/
theorem mergeFold_perm {init : Option CanonicalRecord}
    {l l' : List CanonicalRecord} (hperm : l.Perm l')
    (hpw : l.Pairwise (fun a b => ckey a ≠ ckey b)) :
    mergeFold init l = mergeFold init l' :=
  isMergeResult_unique hperm hpw (mergeFold_isMergeResult l init)
    (mergeFold_isMergeResult l' init)

theorem rtLookup_rtInsert_self {α : Type} (k : String) (v : α)
    (m : List (String × α)) : rtLookup (rtInsert k v m) k = some v := by
  simp [rtLookup, rtInsert]

theorem viewsMatch_canonicalView {doc : DefectDocE} {rt : String}
    {o : Option CanonicalRecord} (hv : viewsMatch doc rt o) :
    canonicalView doc rt = o := by
  obtain ⟨h1, h2, h3, h4, h5, h6⟩ := hv
  cases o with
  | none => simp_all [canonicalView]
  | some r => simp_all [canonicalView]

/-- Single-step simulation: under a consistent view `o` for the candidate's
category, the comparison-and-replacement block of `update_one` succeeds
(provided the candidate's supercell is nonempty when no record exists) and
the six mappings afterwards hold exactly `step o (candRecord c)`; the
identity fields and timestamps are untouched and the defect task id joins
the task-id set. -/
theorem mergeStep_sim (doc : DefectDocE) (c : OkCand)
    (o : Option CanonicalRecord) (hv : viewsMatch doc c.rt o)
    (hok : o = none → 0 < c.defectEntry.scEntry.numAtoms) :
    ∃ d', mergeStep doc c.rt c.dId c.bId c.defectEntry c.bulkEntry c.vbm
        c.valid = .ok d' ∧
      viewsMatch d' c.rt (step o (candRecord c)) ∧
      d'.taskIds = insert c.dId doc.taskIds ∧
      d'.charge = doc.charge ∧ d'.defect = doc.defect ∧
      d'.materialId = doc.materialId ∧ d'.name = doc.name ∧
      d'.lastUpdated = doc.lastUpdated ∧ d'.createdAt = doc.createdAt := by
  obtain ⟨h1, h2, h3, h4, h5, h6⟩ := hv
  cases o with
  | none =>
    have hn : 0 < c.defectEntry.scEntry.numAtoms := hok rfl
    simp only [Option.map_none'] at h1
    refine ⟨{ doc with
        defectEntries := rtInsert c.rt c.defectEntry doc.defectEntries
        defectIds := rtInsert c.rt c.dId doc.defectIds
        bulkEntries := rtInsert c.rt c.bulkEntry doc.bulkEntries
        bulkIds := rtInsert c.rt c.bId doc.bulkIds
        vbm := rtInsert c.rt c.vbm doc.vbm
        valid := rtInsert c.rt c.valid doc.valid
        taskIds := insert c.dId doc.taskIds },
      ?_, ?_, rfl, rfl, rfl, rfl, rfl, rfl, rfl⟩
    · unfold mergeStep mergeCond
      rw [h1]
      simp [hn]
    · refine ⟨?_, ?_, ?_, ?_, ?_, ?_⟩ <;>
        simp [rtLookup_rtInsert_self, step, candRecord]
  | some ex =>
    simp only [Option.map_some'] at h1 h2 h3 h4 h5 h6
    rcases Nat.lt_trichotomy ex.defectEntry.scEntry.numAtoms
      c.defectEntry.scEntry.numAtoms with hlt | heq | hgt
    · -- larger supercell: replace
      have hbeats : beats (candRecord c) ex := Or.inl hlt
      refine ⟨{ doc with
          defectEntries := rtInsert c.rt c.defectEntry doc.defectEntries
          defectIds := rtInsert c.rt c.dId doc.defectIds
          bulkEntries := rtInsert c.rt c.bulkEntry doc.bulkEntries
          bulkIds := rtInsert c.rt c.bId doc.bulkIds
          vbm := rtInsert c.rt c.vbm doc.vbm
          valid := rtInsert c.rt c.valid doc.valid
          taskIds := insert c.dId doc.taskIds },
        ?_, ?_, rfl, rfl, rfl, rfl, rfl, rfl, rfl⟩
      · unfold mergeStep mergeCond
        rw [h1]
        simp [hlt]
      · have hstep : step (some ex) (candRecord c) = some (candRecord c) :=
          if_pos hbeats
        refine ⟨?_, ?_, ?_, ?_, ?_, ?_⟩ <;> rw [hstep] <;>
          simp [rtLookup_rtInsert_self, candRecord]
    · -- equal supercells: compare raw energies
      by_cases he : c.defectEntry.scEntry.energy < ex.defectEntry.scEntry.energy
      · have hbeats : beats (candRecord c) ex := Or.inr ⟨heq.symm, he⟩
        refine ⟨{ doc with
            defectEntries := rtInsert c.rt c.defectEntry doc.defectEntries
            defectIds := rtInsert c.rt c.dId doc.defectIds
            bulkEntries := rtInsert c.rt c.bulkEntry doc.bulkEntries
            bulkIds := rtInsert c.rt c.bId doc.bulkIds
            vbm := rtInsert c.rt c.vbm doc.vbm
            valid := rtInsert c.rt c.valid doc.valid
            taskIds := insert c.dId doc.taskIds },
          ?_, ?_, rfl, rfl, rfl, rfl, rfl, rfl, rfl⟩
        · unfold mergeStep mergeCond
          rw [h1]
          simp [heq, he, Nat.lt_irrefl]
        · have hstep : step (some ex) (candRecord c) = some (candRecord c) :=
            if_pos hbeats
          refine ⟨?_, ?_, ?_, ?_, ?_, ?_⟩ <;> rw [hstep] <;>
            simp [rtLookup_rtInsert_self, candRecord]
      · have hbeats : ¬ beats (candRecord c) ex := by
          rintro (h | ⟨h, h'⟩)
          · have hh : ex.defectEntry.scEntry.numAtoms <
                c.defectEntry.scEntry.numAtoms := h
            omega
          · exact he h'
        refine ⟨{ doc with taskIds := insert c.dId doc.taskIds },
          ?_, ?_, rfl, rfl, rfl, rfl, rfl, rfl, rfl⟩
        · unfold mergeStep mergeCond
          rw [h1]
          simp [heq, he, Nat.lt_irrefl]
        · have hstep : step (some ex) (candRecord c) = some ex :=
            if_neg hbeats
          refine ⟨?_, ?_, ?_, ?_, ?_, ?_⟩ <;> rw [hstep] <;>
            simp [h1, h2, h3, h4, h5, h6]
    · -- smaller supercell: keep the stored record
      have hbeats : ¬ beats (candRecord c) ex := by
        rintro (h | ⟨h, h'⟩)
        · have hh : ex.defectEntry.scEntry.numAtoms <
              c.defectEntry.scEntry.numAtoms := h
          omega
        · have hh : c.defectEntry.scEntry.numAtoms =
              ex.defectEntry.scEntry.numAtoms := h
          omega
      refine ⟨{ doc with taskIds := insert c.dId doc.taskIds },
        ?_, ?_, rfl, rfl, rfl, rfl, rfl, rfl, rfl⟩
      · unfold mergeStep mergeCond
        rw [h1]
        have hne : ¬ c.defectEntry.scEntry.numAtoms =
            ex.defectEntry.scEntry.numAtoms := by omega
        simp [Nat.lt_asymm hgt, hne]
      · have hstep : step (some ex) (candRecord c) = some ex :=
          if_neg hbeats
        refine ⟨?_, ?_, ?_, ?_, ?_, ?_⟩ <;> rw [hstep] <;>
          simp [h1, h2, h3, h4, h5, h6]

/-- Single-step simulation lifted to `update_one` (successful build). -/
theorem updateOne_sim (now : Nat) (doc : DefectDocE) (c : OkCand)
    (o : Option CanonicalRecord) (hv : viewsMatch doc c.rt o)
    (hok : o = none → 0 < c.defectEntry.scEntry.numAtoms) :
    ∃ d', updateOne now doc (toTriple c) = (d', none) ∧
      viewsMatch d' c.rt (step o (candRecord c)) ∧
      d'.taskIds = insert c.dId doc.taskIds ∧
      d'.charge = doc.charge ∧ d'.defect = doc.defect ∧
      d'.materialId = doc.materialId ∧ d'.lastUpdated = now ∧
      d'.createdAt = now := by
  have hv' : viewsMatch { doc with lastUpdated := now, createdAt := now }
      c.rt o := hv
  obtain ⟨d', hms, hvm, hti, hch, hdf, hmi, hnm, hlu, hca⟩ :=
    mergeStep_sim { doc with lastUpdated := now, createdAt := now } c o hv' hok
  refine ⟨d', ?_, hvm, hti, hch, hdf, hmi, hlu, hca⟩
  simp [updateOne, toTriple, hms]

/-- Multi-step simulation: `update_many` over successfully built candidates
of one category tracks the abstract selector fold. -/
theorem updateMany_sim (rt : String) (cs : List OkCand) :
    ∀ (now : Nat) (doc : DefectDocE) (o : Option CanonicalRecord),
    viewsMatch doc rt o →
    (∀ c ∈ cs, c.rt = rt) →
    (∀ c ∈ cs, 0 < c.defectEntry.scEntry.numAtoms) →
    ∃ d', updateMany now doc (cs.map toTriple) = (d', none) ∧
      viewsMatch d' rt (mergeFold o (cs.map candRecord)) := by
  induction cs with
  | nil =>
    intro now doc o hv _ _
    exact ⟨doc, rfl, hv⟩
  | cons c cs ih =>
    intro now doc o hv hrt hn
    have hc : c.rt = rt := hrt c (List.mem_cons_self c cs)
    have hv' : viewsMatch doc c.rt o := by rw [hc]; exact hv
    obtain ⟨d₁, h1, hvm1, _⟩ := updateOne_sim now doc c o hv'
      (fun _ => hn c (List.mem_cons_self c cs))
    have hvm1' : viewsMatch d₁ rt (step o (candRecord c)) := by
      rw [← hc]; exact hvm1
    obtain ⟨d₂, h2, hvm2⟩ := ih now d₁ (step o (candRecord c)) hvm1'
      (fun d hd => hrt d (List.mem_cons_of_mem c hd))
      (fun d hd => hn d (List.mem_cons_of_mem c hd))
    refine ⟨d₂, ?_, hvm2⟩
    show updateMany now doc (toTriple c :: cs.map toTriple) = (d₂, none)
    rw [updateMany, h1]
    exact h2

theorem step_isSome (o : Option CanonicalRecord) (c : CanonicalRecord) :
    (step o c).isSome = true := by
  cases o with
  | none => rfl
  | some ex => by_cases hb : beats c ex <;> simp [step, hb]

theorem step_idem (o : Option CanonicalRecord) (c : CanonicalRecord) :
    step (step o c) c = step o c := by
  cases o with
  | none => simp [step, beats_irrefl]
  | some ex =>
    by_cases hb : beats c ex
    · simp [step, hb, beats_irrefl]
    · simp [step, hb]

/-- A freshly created document with no canonical records (the state that a
first batch construction populates). -/
def emptyDoc : DefectDocE :=
  { defect := "v_O", charge := 0, name := "v_O", materialId := "mp-1"
    defectIds := [], bulkIds := [], taskIds := ∅
    defectEntries := [], bulkEntries := [], vbm := [], valid := []
    lastUpdated := 0, createdAt := 0 }

/-- A 64-atom candidate with raw defect energy `-100` and charge state 1. -/
def cand64 : OkCand :=
  { dId := "d64", bId := "b64", rt := "GGA"
    defectEntry := ⟨⟨64, -100⟩, 1, [], (0, 0, 0)⟩
    valid := [("atomic_relaxation", true)]
    bulkEntry := ⟨64, -90⟩, vbm := 1 }

/-- A 128-atom candidate with the (worse) raw defect energy `-90`. -/
def cand128 : OkCand :=
  { dId := "d128", bId := "b128", rt := "GGA"
    defectEntry := ⟨⟨128, -90⟩, 1, [], (0, 0, 0)⟩
    valid := [("atomic_relaxation", true)]
    bulkEntry := ⟨128, -85⟩, vbm := 2 }

/-- A 64-atom candidate with the strictly lower raw energy `-100.5`
(written `mkRat (-201) 2`). -/
def cand64low : OkCand :=
  { dId := "d64low", bId := "b64low", rt := "GGA"
    defectEntry := ⟨⟨64, mkRat (-201) 2⟩, 1, [], (0, 0, 0)⟩
    valid := [("atomic_relaxation", true)]
    bulkEntry := ⟨64, -91⟩, vbm := 3 }

/-- A candidate with exactly `cand64`'s supercell size and raw energy but a
different payload (ids, vbm). -/
def cand64dup : OkCand :=
  { dId := "dDup", bId := "bDup", rt := "GGA"
    defectEntry := ⟨⟨64, -100⟩, 1, [], (0, 0, 0)⟩
    valid := [("atomic_relaxation", true)]
    bulkEntry := ⟨64, -90⟩, vbm := 7 }

/-- A document already holding `cand64`'s record for category `"GGA"`. -/
def docWith64 : DefectDocE :=
  { emptyDoc with
    defectEntries := [("GGA", cand64.defectEntry)]
    bulkEntries := [("GGA", cand64.bulkEntry)]
    defectIds := [("GGA", "d64")]
    bulkIds := [("GGA", "b64")]
    vbm := [("GGA", 1)]
    valid := [("GGA", cand64.valid)]
    taskIds := {"d64"} }

/-- C1.  Merge tie-break rule of `DefectDoc.update_one`: for a candidate of
category `c.rt` whose entry building succeeded, if the document holds no
canonical record for that category the candidate is installed (the source
realizes "install unconditionally" through the size-`0` sentinel, so the
installation needs the supercell to be nonempty); if a record exists, the
candidate replaces it exactly when it `beats` it — strictly more supercell
atoms, or equally many and strictly lower raw energy — and on an exact
(atom count, energy) tie the existing record is retained unchanged. -/
theorem C1_merge_tie_break (now : Nat) (doc : DefectDocE) (c : OkCand) :
    (viewsMatch doc c.rt none → 0 < c.defectEntry.scEntry.numAtoms →
      ∃ d', updateOne now doc (toTriple c) = (d', none) ∧
        canonicalView d' c.rt = some (candRecord c)) ∧
    (∀ ex, viewsMatch doc c.rt (some ex) →
      ∃ d', updateOne now doc (toTriple c) = (d', none) ∧
        canonicalView d' c.rt =
          some (if beats (candRecord c) ex then candRecord c else ex)) := by
  constructor
  · intro hv hn
    obtain ⟨d', h1, hvm, _⟩ := updateOne_sim now doc c none hv (fun _ => hn)
    exact ⟨d', h1, viewsMatch_canonicalView hvm⟩
  · intro ex hv
    obtain ⟨d', h1, hvm, _⟩ := updateOne_sim now doc c (some ex) hv
      (fun h => absurd h (Option.some_ne_none ex))
    refine ⟨d', h1, ?_⟩
    rw [viewsMatch_canonicalView hvm]
    by_cases hb : beats (candRecord c) ex
    · simp [step, hb]
    · simp [step, hb]

/-- Witness for C1 at concrete inputs: installation into an empty slot; a
128-atom candidate replacing a 64-atom record regardless of energy; an
equal-size candidate with strictly lower energy replacing; and an exact
tie retaining the first-installed record. -/
theorem C1_merge_tie_break_witness :
    (∃ d', updateOne 1 emptyDoc (toTriple cand64) = (d', none) ∧
      canonicalView d' "GGA" = some (candRecord cand64)) ∧
    (∃ d', updateOne 2 docWith64 (toTriple cand128) = (d', none) ∧
      canonicalView d' "GGA" = some (candRecord cand128)) ∧
    (∃ d', updateOne 3 docWith64 (toTriple cand64low) = (d', none) ∧
      canonicalView d' "GGA" = some (candRecord cand64low)) ∧
    (∃ d', updateOne 4 docWith64 (toTriple cand64dup) = (d', none) ∧
      canonicalView d' "GGA" = some (candRecord cand64)) := by
  refine ⟨?_, ?_, ?_, ?_⟩
  · obtain ⟨d', h1, h2⟩ := (C1_merge_tie_break 1 emptyDoc cand64).1
      (by unfold viewsMatch; decide) (by decide)
    exact ⟨d', h1, h2⟩
  · obtain ⟨d', h1, h2⟩ := (C1_merge_tie_break 2 docWith64 cand128).2
      (candRecord cand64) (by unfold viewsMatch; decide)
    exact ⟨d', h1, h2.trans (by decide)⟩
  · obtain ⟨d', h1, h2⟩ := (C1_merge_tie_break 3 docWith64 cand64low).2
      (candRecord cand64) (by unfold viewsMatch; decide)
    exact ⟨d', h1, h2.trans (by decide)⟩
  · obtain ⟨d', h1, h2⟩ := (C1_merge_tie_break 4 docWith64 cand64dup).2
      (candRecord cand64) (by unfold viewsMatch; decide)
    exact ⟨d', h1, h2.trans (by decide)⟩

/-- C2 counterexample.  Merge order-independence fails as stated: two
candidates with identical (atom count, energy) tie-break keys but different
payloads (ids, vbm) produce different final canonical records depending on
the merge order, because an exact tie always retains the first-installed
record. -/
theorem C2_order_dependence_counterexample :
    canonicalView
        (updateMany 0 emptyDoc [toTriple cand64, toTriple cand64dup]).1
        "GGA" ≠
      canonicalView
        (updateMany 0 emptyDoc [toTriple cand64dup, toTriple cand64]).1
        "GGA" := by decide

/-- C2 (amended).  Merge order-independence holds for candidates of one
category whose (supercell atom count, raw energy) tie-break keys are
pairwise distinct: starting from any document whose six mappings
consistently hold `o` for the category, merging any permutation of the
candidates one at a time yields the same final canonical record.  (Batch
construction `from_tasks` installs its single candidate into an empty
document and defers to the same comparison for subsequent merges, so both
cited code paths are covered by `update_one`/`update_many`.) -/
theorem C2_order_independent_of_distinct_keys (now : Nat) (doc : DefectDocE)
    (rt : String) (o : Option CanonicalRecord) (cs cs' : List OkCand)
    (hv : viewsMatch doc rt o)
    (hrt : ∀ c ∈ cs, c.rt = rt)
    (hn : ∀ c ∈ cs, 0 < c.defectEntry.scEntry.numAtoms)
    (hkeys : cs.Pairwise (fun a b => ckey (candRecord a) ≠ ckey (candRecord b)))
    (hperm : cs.Perm cs') :
    canonicalView (updateMany now doc (cs.map toTriple)).1 rt =
      canonicalView (updateMany now doc (cs'.map toTriple)).1 rt := by
  obtain ⟨d1, h1, hv1⟩ := updateMany_sim rt cs now doc o hv hrt hn
  obtain ⟨d2, h2, hv2⟩ := updateMany_sim rt cs' now doc o hv
    (fun c hc => hrt c (hperm.mem_iff.mpr hc))
    (fun c hc => hn c (hperm.mem_iff.mpr hc))
  rw [h1, h2, viewsMatch_canonicalView hv1, viewsMatch_canonicalView hv2]
  exact mergeFold_perm (hperm.map candRecord)
    (hkeys.map candRecord (fun a b h => h))

/-- Witness for the amended C2: the 64- and 128-atom candidates (distinct
keys) merged in either order into a fresh document give the same canonical
record. -/
theorem C2_order_independent_witness :
    canonicalView
        (updateMany 0 emptyDoc ([cand64, cand128].map toTriple)).1 "GGA" =
      canonicalView
        (updateMany 0 emptyDoc ([cand128, cand64].map toTriple)).1 "GGA" :=
  C2_order_independent_of_distinct_keys 0 emptyDoc "GGA" none
    [cand64, cand128] [cand128, cand64]
    (by unfold viewsMatch; decide) (by decide) (by decide) (by decide)
    (by decide)

/-- Whatever the comparison decides, a non-raising pass through the merge
block adds the defect task id to the task-id set and leaves the identity
fields and timestamps untouched. -/
theorem mergeStep_ok_fields {doc : DefectDocE} {rt dId bId : String}
    {de : DefectEntryE} {be : SCEntry} {vbmv : Rat} {validv : ValidOutcome}
    {d' : DefectDocE}
    (h : mergeStep doc rt dId bId de be vbmv validv = .ok d') :
    d'.taskIds = insert dId doc.taskIds ∧ d'.charge = doc.charge ∧
      d'.defect = doc.defect ∧ d'.materialId = doc.materialId ∧
      d'.name = doc.name ∧ d'.lastUpdated = doc.lastUpdated ∧
      d'.createdAt = doc.createdAt := by
  unfold mergeStep at h
  rcases hc : mergeCond doc rt de with e | b
  · rw [hc] at h
    exact absurd h (by simp)
  · rw [hc] at h
    have hd : d' = _ := (Except.ok.inj h).symm
    subst hd
    cases b <;> simp

/-- C3.  Idempotence and task-id set semantics: merging the identical
candidate a second time leaves the category's canonical record unchanged
and the task-id set unchanged (no duplicate id — the source's
`list(set(...) | {d_id})` has set semantics); and after every non-raising
merge, replacement or not, the candidate's defect task id is a member of
the task-id set. -/
theorem C3_idempotent_merge (now now' : Nat) (doc : DefectDocE) (c : OkCand)
    (o : Option CanonicalRecord) (hv : viewsMatch doc c.rt o)
    (hok : o = none → 0 < c.defectEntry.scEntry.numAtoms) :
    (∃ d₁ d₂, updateOne now doc (toTriple c) = (d₁, none) ∧
      updateOne now' d₁ (toTriple c) = (d₂, none) ∧
      canonicalView d₂ c.rt = canonicalView d₁ c.rt ∧
      d₂.taskIds = d₁.taskIds ∧ c.dId ∈ d₁.taskIds) ∧
    (∀ (doc₀ d' : DefectDocE),
      updateOne now doc₀ (toTriple c) = (d', none) → c.dId ∈ d'.taskIds) := by
  constructor
  · obtain ⟨d₁, h1, hv1, ht1, _⟩ := updateOne_sim now doc c o hv hok
    have hok₂ : step o (candRecord c) = none →
        0 < c.defectEntry.scEntry.numAtoms := by
      intro h
      have := step_isSome o (candRecord c)
      rw [h] at this
      exact absurd this (by simp)
    obtain ⟨d₂, h2, hv2, ht2, _⟩ := updateOne_sim now' d₁ c
      (step o (candRecord c)) hv1 hok₂
    refine ⟨d₁, d₂, h1, h2, ?_, ?_, ?_⟩
    · rw [viewsMatch_canonicalView hv2, viewsMatch_canonicalView hv1,
        step_idem]
    · rw [ht2, ht1, Finset.insert_idem]
    · rw [ht1]
      exact Finset.mem_insert_self c.dId doc.taskIds
  · intro doc₀ d' h
    have h' : (match mergeStep
        { doc₀ with lastUpdated := now, createdAt := now }
        c.rt c.dId c.bId c.defectEntry c.bulkEntry c.vbm c.valid with
      | .error e =>
        ({ doc₀ with lastUpdated := now, createdAt := now }, some e)
      | .ok doc' => (doc', none)) = (d', none) := h
    rcases hms : mergeStep { doc₀ with lastUpdated := now, createdAt := now }
        c.rt c.dId c.bId c.defectEntry c.bulkEntry c.vbm c.valid with e | d''
    · rw [hms] at h'
      simp at h'
    · rw [hms] at h'
      have hd : d'' = d' := congrArg Prod.fst h'
      subst hd
      have := (mergeStep_ok_fields hms).1
      rw [this]
      exact Finset.mem_insert_self c.dId _

/-- Witness for C3: merging `cand64` twice into a fresh document. -/
theorem C3_idempotent_merge_witness :
    ∃ d₁ d₂, updateOne 1 emptyDoc (toTriple cand64) = (d₁, none) ∧
      updateOne 2 d₁ (toTriple cand64) = (d₂, none) ∧
      canonicalView d₂ "GGA" = canonicalView d₁ "GGA" ∧
      d₂.taskIds = d₁.taskIds ∧ "d64" ∈ d₁.taskIds := by
  obtain ⟨d₁, d₂, h1, h2, h3, h4, h5⟩ :=
    (C3_idempotent_merge 1 2 emptyDoc cand64 none
      (by unfold viewsMatch; decide) (by decide)).1
  exact ⟨d₁, d₂, h1, h2, h3, h4, h5⟩

/-- C4 counterexample.  `update_one` performs no charge-consistency check:
a candidate whose derived charge state (`1`) differs from the document's
stored charge (`0`) is merged without any error — there is no
`InconsistentChargeError` in the code — and its record is even installed. -/
theorem C4_no_charge_check_counterexample :
    cand64.defectEntry.chargeState ≠ emptyDoc.charge ∧
    (updateOne 1 emptyDoc (toTriple cand64)).2 = none ∧
    canonicalView (updateOne 1 emptyDoc (toTriple cand64)).1 "GGA" =
      some (candRecord cand64) := by decide

/-- C4 (amended).  Charge state, defect identity, and material id are never
modified by `update_one` (whatever the outcome), but no charge-consistency
check exists: a successfully built candidate with a derived charge state
different from the document's stored charge is merged without error. -/
theorem C4_charge_invariants (now : Nat) (doc : DefectDocE) (t : Triple) :
    ((updateOne now doc t).1.charge = doc.charge ∧
      (updateOne now doc t).1.defect = doc.defect ∧
      (updateOne now doc t).1.materialId = doc.materialId ∧
      (updateOne now doc t).1.name = doc.name) ∧
    (∀ (c : OkCand) (o : Option CanonicalRecord), viewsMatch doc c.rt o →
      (o = none → 0 < c.defectEntry.scEntry.numAtoms) →
      c.defectEntry.chargeState ≠ doc.charge →
      (updateOne now doc (toTriple c)).2 = none) := by
  constructor
  · rcases hb : t.build with e | ⟨de, validv⟩
    · simp [updateOne, hb]
    · rcases hms : mergeStep { doc with lastUpdated := now, createdAt := now }
          t.rt t.dId t.bId de t.bulkEntry t.vbm validv with e | d'
      · simp [updateOne, hb, hms]
      · have hf := mergeStep_ok_fields hms
        simp [updateOne, hb, hms]
        exact ⟨hf.2.1, hf.2.2.1, hf.2.2.2.1, hf.2.2.2.2.1⟩
  · intro c o hv hok _
    obtain ⟨d', h1, _⟩ := updateOne_sim now doc c o hv hok
    rw [h1]

/-- Witness for C4: the merge of a charge-1 candidate into a charge-0
document leaves the stored charge untouched and raises nothing. -/
theorem C4_charge_invariants_witness :
    (updateOne 1 emptyDoc (toTriple cand64)).1.charge = emptyDoc.charge ∧
    (updateOne 1 emptyDoc (toTriple cand64)).2 = none :=
  ⟨(C4_charge_invariants 1 emptyDoc (toTriple cand64)).1.1,
    (C4_charge_invariants 1 emptyDoc (toTriple cand64)).2 cand64 none
      ⟨rfl, rfl, rfl, rfl, rfl, rfl⟩ (by decide) (by decide)⟩

/-- An `update_one` input whose entry-building stage raises (for example a
`TypeError`/`GeometryError`-class failure while locating the defect). -/
def tripleFail : Triple :=
  { dId := "dx", bId := "bx", rt := "GGA", build := .error .typeError
    bulkEntry := ⟨64, -90⟩, vbm := 1 }

/-- C5 counterexample.  A failed incremental merge does not leave the
document unchanged: `update_one` refreshes `last_updated` and `created_at`
before the fallible entry-building stage runs, so after the failure both
timestamps differ from their prior values while the raised error is
reported. -/
theorem C5_failed_merge_mutates_timestamps :
    (updateOne 5 emptyDoc tripleFail).2 = some Err.typeError ∧
    (updateOne 5 emptyDoc tripleFail).1.lastUpdated ≠ emptyDoc.lastUpdated ∧
    (updateOne 5 emptyDoc tripleFail).1.createdAt ≠ emptyDoc.createdAt := by
  decide

/-- C5 (amended).  When an incremental merge attempt raises, the document
afterwards differs from its prior state only in the two timestamps (which
were refreshed at the start of the attempt): no canonical record, id
mapping, or task-id set entry is modified. -/
theorem C5_atomic_failure_except_timestamps (now : Nat) (doc : DefectDocE)
    (t : Triple) (e : Err) (h : (updateOne now doc t).2 = some e) :
    (updateOne now doc t).1 =
      { doc with lastUpdated := now, createdAt := now } := by
  rcases hb : t.build with e' | ⟨de, validv⟩
  · simp [updateOne, hb]
  · rcases hms : mergeStep { doc with lastUpdated := now, createdAt := now }
        t.rt t.dId t.bId de t.bulkEntry t.vbm validv with e' | d'
    · simp [updateOne, hb, hms]
    · simp [updateOne, hb, hms] at h

/-- Witness for the amended C5 at a concrete failing input. -/
theorem C5_atomic_failure_witness :
    (updateOne 9 docWith64 tripleFail).1 =
      { docWith64 with lastUpdated := 9, createdAt := 9 } :=
  C5_atomic_failure_except_timestamps 9 docWith64 tripleFail Err.typeError
    (by decide)

/-- C6 counterexample.  Batch processing does not continue past a failure:
with a failing first triple and a well-formed second one, `update_many`
propagates the first error, the second candidate is never merged (no
canonical record for its category) and its task id is absent from the
task-id set. -/
theorem C6_batch_abort_counterexample :
    (updateMany 0 emptyDoc [tripleFail, toTriple cand64]).2 =
      some Err.typeError ∧
    canonicalView (updateMany 0 emptyDoc [tripleFail, toTriple cand64]).1
      "GGA" = none ∧
    "d64" ∉ (updateMany 0 emptyDoc [tripleFail, toTriple cand64]).1.taskIds
    := by decide

/-- C6 (amended).  `update_many` is a bare loop over `update_one`: the
first raising triple aborts the whole call — the error propagates with the
document as the failed `update_one` left it, and every remaining triple is
ignored (the result does not depend on the tail at all). -/
theorem C6_abort_on_failure (now : Nat) (doc : DefectDocE) (t : Triple)
    (ts : List Triple) (d' : DefectDocE) (e : Err)
    (h : updateOne now doc t = (d', some e)) :
    updateMany now doc (t :: ts) = (d', some e) := by
  rw [updateMany, h]

/-- Witness for the amended C6: the failing head triple makes the whole
batch call return its error, with the healthy tail never processed. -/
theorem C6_abort_on_failure_witness :
    updateMany 3 emptyDoc [tripleFail, toTriple cand128] =
      ({ emptyDoc with lastUpdated := 3, createdAt := 3 },
        some Err.typeError) :=
  C6_abort_on_failure 3 emptyDoc tripleFail [toTriple cand128]
    { emptyDoc with lastUpdated := 3, createdAt := 3 } Err.typeError
    (by decide)

/-- Evaluating the strategy loop of `get_correction_from_parameters` once
both strategy outcomes are known. -/
theorem getCorrection_eq (ext3d : Ext3d) (ext2d : Ext2d) (p : Params)
    (c1 m1 c2 m2 : List (String × Rat))
    (h1 : getFreysoldtCorrection ext3d p = .ok (c1, m1))
    (h2 : getFreysoldt2dCorrection ext2d p = .ok (c2, m2)) :
    getCorrectionFromParameters ext3d ext2d p =
      .ok (dictUpdate (dictUpdate [] c1) c2,
        dictUpdate (dictUpdate [] m1) m2) := by
  unfold getCorrectionFromParameters
  rw [h1, h2]
  rfl

/-- The two strategies' guards are mutually exclusive, so at least one of
any pair of successful outcomes is the empty contribution. -/
theorem correction_one_empty (ext3d : Ext3d) (ext2d : Ext2d) (p : Params)
    (c1 m1 c2 m2 : List (String × Rat))
    (h1 : getFreysoldtCorrection ext3d p = .ok (c1, m1))
    (h2 : getFreysoldt2dCorrection ext2d p = .ok (c2, m2)) :
    (c1 = [] ∧ m1 = []) ∨ (c2 = [] ∧ m2 = []) := by
  by_cases g1 : p.chargeState ≠ 0 ∧ p.twoD = false
  · right
    have g2 : ¬ (p.chargeState ≠ 0 ∧ p.twoD = true) := by
      rintro ⟨_, ht⟩
      rw [g1.2] at ht
      cases ht
    have h2' : getFreysoldt2dCorrection ext2d p = .ok ([], []) := by
      simp [getFreysoldt2dCorrection, g2]
    rw [h2'] at h2
    have h := Except.ok.inj h2
    exact ⟨((Prod.mk.injEq _ _ _ _).mp h).1.symm,
      ((Prod.mk.injEq _ _ _ _).mp h).2.symm⟩
  · left
    have h1' : getFreysoldtCorrection ext3d p = .ok ([], []) := by
      simp [getFreysoldtCorrection, g1]
    rw [h1'] at h1
    have h := Except.ok.inj h1
    exact ⟨((Prod.mk.injEq _ _ _ _).mp h).1.symm,
      ((Prod.mk.injEq _ _ _ _).mp h).2.symm⟩

/-- A successful 3-D strategy outcome is the empty contribution or the
singleton `freysoldt` entry. -/
theorem getFreysoldt_shape (ext : Ext3d) (p : Params)
    (c m : List (String × Rat))
    (h : getFreysoldtCorrection ext p = .ok (c, m)) :
    c = [] ∨ ∃ v, c = [("freysoldt", v)] := by
  unfold getFreysoldtCorrection at h
  by_cases g : p.chargeState ≠ 0 ∧ p.twoD = false
  · rw [if_pos g] at h
    rcases hdl : p.dielectric with _ | d
    · rw [hdl] at h
      exact Except.noConfusion h
    · rw [hdl] at h
      exact Or.inr ⟨_, ((Prod.mk.injEq _ _ _ _).mp (Except.ok.inj h)).1.symm⟩
  · rw [if_neg g] at h
    exact Or.inl ((Prod.mk.injEq _ _ _ _).mp (Except.ok.inj h)).1.symm

/-- A successful 2-D strategy outcome is the empty contribution or the
singleton `freysoldt` entry. -/
theorem getFreysoldt2d_shape (ext : Ext2d) (p : Params)
    (c m : List (String × Rat))
    (h : getFreysoldt2dCorrection ext p = .ok (c, m)) :
    c = [] ∨ ∃ v, c = [("freysoldt", v)] := by
  unfold getFreysoldt2dCorrection at h
  by_cases g : p.chargeState ≠ 0 ∧ p.twoD = true
  · rw [if_pos g] at h
    rcases hdl : p.dielectric with _ | d
    · rw [hdl] at h
      exact Except.noConfusion h
    · rw [hdl] at h
      exact Or.inr ⟨_, ((Prod.mk.injEq _ _ _ _).mp (Except.ok.inj h)).1.symm⟩
  · rw [if_neg g] at h
    exact Or.inl ((Prod.mk.injEq _ _ _ _).mp (Except.ok.inj h)).1.symm

/-- C7.  Correction accumulation: for every parameter bundle the two
strategies' guards are mutually exclusive, so their successful
contributions have disjoint key sets (at least one is empty), the
`dict.update` accumulation equals their plain union, the same union is
obtained when the strategies are accumulated in the opposite order, and in
particular no same-named key is ever silently overwritten — the collision
that the spec's `CorrectionConflictError` would signal is unreachable. -/
theorem C7_correction_accumulation (ext3d : Ext3d) (ext2d : Ext2d)
    (p : Params) (c1 m1 c2 m2 : List (String × Rat))
    (h1 : getFreysoldtCorrection ext3d p = .ok (c1, m1))
    (h2 : getFreysoldt2dCorrection ext2d p = .ok (c2, m2)) :
    (c1 = [] ∨ c2 = []) ∧
    (∀ k, k ∈ c1.map Prod.fst → k ∉ c2.map Prod.fst) ∧
    getCorrectionFromParameters ext3d ext2d p =
      .ok (c1 ++ c2, dictUpdate (dictUpdate [] m1) m2) ∧
    dictUpdate (dictUpdate [] c1) c2 = dictUpdate (dictUpdate [] c2) c1 := by
  have hkey := getCorrection_eq ext3d ext2d p c1 m1 c2 m2 h1 h2
  rcases correction_one_empty ext3d ext2d p c1 m1 c2 m2 h1 h2 with
    ⟨hc1, _⟩ | ⟨hc2, _⟩
  · subst hc1
    rcases getFreysoldt2d_shape ext2d p c2 m2 h2 with hc2 | ⟨v, hc2⟩ <;>
      subst hc2
    · exact ⟨Or.inl rfl, by simp, hkey, rfl⟩
    · refine ⟨Or.inl rfl, by simp, ?_, ?_⟩
      · rw [hkey]
        simp [dictUpdate, dictInsert]
      · simp [dictUpdate, dictInsert]
  · subst hc2
    rcases getFreysoldt_shape ext3d p c1 m1 h1 with hc1 | ⟨v, hc1⟩ <;>
      subst hc1
    · exact ⟨Or.inl rfl, by simp, hkey, rfl⟩
    · refine ⟨Or.inr rfl, by simp, ?_, ?_⟩
      · rw [hkey]
        simp [dictUpdate, dictInsert]
      · simp [dictUpdate, dictInsert]

/-- A plain structure slice for building concrete parameter bundles. -/
def stPlain : StructureE :=
  { numSites := 2, numAtoms := 2, ghostProps := some [false, false]
    fracCoords := [(0, 0, 0), (0, 0, 0)], charge := 1 }

/-- The dielectric tensor `8.9·I`. -/
def diel89 : Diel := fun i j => if i = j then mkRat 89 10 else 0

/-- A zero-charge parameter bundle (dielectric supplied, not 2-D). -/
def paramsZero : Params :=
  { defectEnergy := -100, bulkEnergy := -90, chargeState := 0
    defectFracScCoords := (0, 0, 0), defectVHartree := "vd"
    bulkVHartree := "vb", dielectric := some diel89, twoD := false
    initialDefectStructure := stPlain, finalDefectStructure := stPlain }

/-- A charge `+1`, non-2-D bundle with the dielectric supplied. -/
def paramsPlus : Params := { paramsZero with chargeState := 1 }

/-- A charge `+1`, non-2-D bundle with no dielectric supplied. -/
def paramsNoDiel : Params := { paramsPlus with dielectric := none }

/-- A concrete stand-in for the external 3-D Freysoldt routine. -/
def ext3dC : Ext3d := fun _ _ _ _ _ => ⟨1, [("freysoldt_meta", 0)]⟩

/-- A concrete stand-in for the external 2-D Freysoldt routine. -/
def ext2dC : Ext2d := fun _ _ _ _ _ _ _ => ⟨2, []⟩

/-- Witness for C7 at a concrete charged non-2-D bundle: the accumulated
mapping is the 3-D strategy's singleton united with the 2-D strategy's
empty contribution. -/
theorem C7_correction_accumulation_witness :
    getCorrectionFromParameters ext3dC ext2dC paramsPlus =
      .ok ([("freysoldt", 1)] ++ [],
        dictUpdate (dictUpdate [] [("freysoldt_meta", 0)]) []) :=
  (C7_correction_accumulation ext3dC ext2dC paramsPlus
    [("freysoldt", 1)] [("freysoldt_meta", 0)] [] []
    rfl rfl).2.2.1

/-- C8.  Correction guards: a zero-charge bundle yields the empty
contribution from both strategies; a charged non-2-D bundle with a
dielectric yields the 3-D strategy's `freysoldt` entry and an empty 2-D
contribution.  But the "missing dielectric" case is NOT a silent
zero-effect branch: for a charged, non-2-D bundle with no dielectric the
accumulation raises `KeyError` (the guard checks charge and the 2-D flag
only, then reads `parameters["dielectric"]` unconditionally), contradicting
the claim and the method's own docstring. -/
theorem C8_correction_guards (ext3d : Ext3d) (ext2d : Ext2d) :
    getFreysoldtCorrection ext3d paramsZero = .ok ([], []) ∧
    getFreysoldt2dCorrection ext2d paramsZero = .ok ([], []) ∧
    getFreysoldt2dCorrection ext2d paramsPlus = .ok ([], []) ∧
    getFreysoldtCorrection ext3d paramsPlus =
      .ok ([("freysoldt",
          (ext3d 1 diel89 "vd" "vb" (0, 0, 0)).correctionEnergy)],
        (ext3d 1 diel89 "vd" "vb" (0, 0, 0)).metadata) ∧
    getCorrectionFromParameters ext3d ext2d paramsNoDiel =
      .error Err.keyError := by
  refine ⟨?_, ?_, ?_, ?_, ?_⟩
  · simp [getFreysoldtCorrection, paramsZero]
  · simp [getFreysoldt2dCorrection, paramsZero]
  · simp [getFreysoldt2dCorrection, paramsPlus, paramsZero]
  · simp [getFreysoldtCorrection, paramsPlus, paramsZero]
  · simp [getCorrectionFromParameters, getFreysoldtCorrection,
      paramsNoDiel, paramsPlus, paramsZero]
    rfl

/-- A defect structure carrying no `ghost` site property at all. -/
def stNoGhost : StructureE :=
  { numSites := 2, numAtoms := 2, ghostProps := none
    fracCoords := [(0, 0, 0), (mkRat 1 2, mkRat 1 2, mkRat 1 2)]
    charge := 0 }

/-- A defect structure whose second site is tagged as the ghost marker. -/
def stTagged : StructureE := { stNoGhost with ghostProps := some [false, true] }

/-- A defect structure with the ghost property present but no site
tagged. -/
def stAllFalse : StructureE :=
  { stNoGhost with ghostProps := some [false, false] }

/-- A task document slice around a given final structure. -/
def tdOf (st : StructureE) : TaskDocE :=
  { structure_ := st, inputStructure := st, outputEnergy := -100
    outputVbm := 1, vHartree := "vd", tags := [], runType := "GGA" }

/-- C9.  Defect location: a tagged site's fractional coordinate is
returned directly, and with the ghost property present but all-`False` the
external defect finder's result is returned; but a defect structure
carrying no `ghost` site property at all does not reach the finder — the
parameter extraction fails with `TypeError` (`enumerate(None)`),
contradicting the claim that the untagged branch succeeds for any
marker-free structure. -/
theorem C9_defect_location (finder : StructureE → StructureE → Vec3)
    (bulkTask : TaskDocE) :
    getParametersFromTasks finder (tdOf stNoGhost) bulkTask =
      .error Err.typeError ∧
    (∃ p, getParametersFromTasks finder (tdOf stTagged) bulkTask = .ok p ∧
      p.defectFracScCoords = (mkRat 1 2, mkRat 1 2, mkRat 1 2)) ∧
    (∃ p, getParametersFromTasks finder (tdOf stAllFalse) bulkTask = .ok p ∧
      p.defectFracScCoords = finder stAllFalse bulkTask.structure_) := by
  refine ⟨rfl, ⟨_, rfl, rfl⟩, ⟨_, rfl, rfl⟩⟩

/-- C10.  Validator threshold boundary: a mean outside-sphere displacement
exactly equal to the configured threshold passes (`atomic_relaxation =
True`), and any mean strictly greater fails (`False`) — the source tests
`np.mean(...) > MAX_ATOMIC_RELAXATION`. -/
theorem C10_validator_boundary (v : DefectValidationE) (G : ExternalGeom)
    (p : Params) :
    (mean (outsideDistances G p) = v.maxAtomicRelaxation →
      atomicRelaxationCheck v G p = [("atomic_relaxation", true)]) ∧
    (v.maxAtomicRelaxation < mean (outsideDistances G p) →
      atomicRelaxationCheck v G p = [("atomic_relaxation", false)]) := by
  constructor
  · intro h
    have hnl : ¬ v.maxAtomicRelaxation < mean (outsideDistances G p) := by
      rw [h]
      exact lt_irrefl _
    unfold atomicRelaxationCheck
    rw [if_neg hnl]
  · intro h
    unfold atomicRelaxationCheck
    rw [if_pos h]

/-- The default-configured validator. -/
def valDefault : DefectValidationE := {}

/-- External geometry making the single outside-sphere site's displacement
exactly the default threshold `0.02`. -/
def geomEq : ExternalGeom :=
  { finder := fun _ _ => (0, 0, 0), cutoff := fun _ => 1
    sitesInSphere := fun _ _ _ => [0]
    distList := fun _ _ => [0, mkRat 1 50]
    adsorbateNeighborDists := fun _ _ => [] }

/-- External geometry making that displacement `0.04`, strictly above the
threshold. -/
def geomGt : ExternalGeom := { geomEq with distList := fun _ _ => [0, mkRat 1 25] }

/-- Witness for C10 at the default threshold `0.02`: mean displacement
exactly `0.02` passes, mean `0.04` fails. -/
theorem C10_validator_boundary_witness :
    atomicRelaxationCheck valDefault geomEq paramsZero =
      [("atomic_relaxation", true)] ∧
    atomicRelaxationCheck valDefault geomGt paramsZero =
      [("atomic_relaxation", false)] := by
  constructor
  · refine (C10_validator_boundary valDefault geomEq paramsZero).1 ?_
    have hl : outsideDistances geomEq paramsZero = [mkRat 1 50] := by decide
    rw [hl]
    simp [mean, valDefault]
  · refine (C10_validator_boundary valDefault geomGt paramsZero).2 ?_
    have hl : outsideDistances geomGt paramsZero = [mkRat 1 25] := by decide
    rw [hl]
    simp [mean, valDefault]
    decide

end DefectSchema
